import Mathlib

/-!
Shallow embedding of the render-graph core of the `bevy` pipelined renderer
(crate `bevy_render2`), together with proofs about its operations.

The central file embedded here is
`src/pipelined/bevy_render2/src/render_graph/graph.rs` (struct `RenderGraph`
and its methods, and `GraphInputNode`).  Supporting types that live in
sibling modules of `render_graph` (`Edge`, `Edges`, `NodeState`, `SlotInfo`,
`SlotLabel`, the slot-resolution helpers and the run context) are not part of
the provided sources; they are modelled from the specification and marked as
such in their doc comments.

Rust `HashMap`s are modelled as association lists with replace-on-insert
semantics; `NodeId`s are modelled as natural numbers handed out by a
per-graph counter; panics and `Result::Err` are modelled with `Except`,
methods on `&mut self` as state-passing functions returning the new state
(error paths return the state as it stands at the point of failure, so that
partial-mutation behaviour is preserved).
-/

namespace RenderGraph2

/-- Node identifiers.  Modelled from the spec: `NodeId` is "unique, opaque,
generated at node insertion; owned by the graph"; we realise it as a natural
number drawn from a per-graph counter. -/
abbrev NodeId := Nat

/-- `SlotType` from the slot module (not in the provided sources).
Modelled from the spec: `SlotType ∈ {Buffer, TextureView, Sampler, Entity}`. -/
inductive SlotType where
  | Buffer
  | TextureView
  | Sampler
  | Entity
deriving DecidableEq, Repr

/-- `SlotInfo` from the slot module (not in the provided sources).
Modelled from the spec: `{ name: string, type: SlotType }`. -/
structure SlotInfo where
  name : String
  slot_type : SlotType
deriving DecidableEq, Repr

/-- `SlotLabel`: union of an index or a name.  Modelled from the spec. -/
inductive SlotLabel where
  | Index (index : Nat)
  | Name (name : String)
deriving DecidableEq, Repr

/-- `NodeLabel`: a node addressed either by id or by name (mirrors
`NodeLabel::Id` / `NodeLabel::Name` used throughout `graph.rs`). -/
inductive NodeLabel where
  | Id (id : NodeId)
  | Name (name : String)
deriving DecidableEq, Repr

/-- `Edge` from the edge module (not in the provided sources).  Modelled from
the spec: a `SlotEdge` carries `output_node`, `output_index`, `input_node`,
`input_index`; a `NodeEdge` is a pure ordering constraint. -/
inductive Edge where
  | SlotEdge (output_node : NodeId) (output_index : Nat)
      (input_node : NodeId) (input_index : Nat)
  | NodeEdge (output_node : NodeId) (input_node : NodeId)
deriving DecidableEq, Repr

/-- `Edge::get_output_node`. -/
def Edge.get_output_node : Edge → NodeId
  | .SlotEdge o _ _ _ => o
  | .NodeEdge o _ => o

/-- `Edge::get_input_node`. -/
def Edge.get_input_node : Edge → NodeId
  | .SlotEdge _ _ i _ => i
  | .NodeEdge _ i => i

/-- `RenderGraphError` (variants as used by `graph.rs`). -/
inductive RenderGraphError where
  | InvalidNode (label : NodeLabel)
  | InvalidOutputNodeSlot (label : SlotLabel)
  | InvalidInputNodeSlot (label : SlotLabel)
  | WrongNodeType
  | EdgeAlreadyExists (edge : Edge)
  | NodeInputSlotAlreadyOccupied (node : NodeId) (input_slot : Nat)
      (occupied_by_node : NodeId)
  | MismatchedNodeSlots (output_node : NodeId) (output_slot : Nat)
      (input_node : NodeId) (input_slot : Nat)
deriving DecidableEq, Repr

/-- Slot-label resolution against a signature (`SlotInfos::get_slot_index`,
not in the provided sources).  Modelled from the spec: "Resolving a
`SlotLabel` against a signature returns the slot's position; fails ... when
the name is unknown or the index is out of range". -/
def get_slot_index (slots : List SlotInfo) : SlotLabel → Option Nat
  | .Index index => if index < slots.length then some index else none
  | .Name name => slots.findIdx? (fun s => s.name = name)

/-- `SlotInfos::get_slot` (not in the provided sources): positional slot
lookup, modelled from the spec as list indexing. -/
def get_slot (slots : List SlotInfo) (index : Nat) : Option SlotInfo :=
  slots[index]?

/-- The incident-edge sets of one node (`Edges`, not in the provided
sources).  Modelled from the spec: each `NodeState` owns "its incident edges
(input set, output set)". -/
structure Edges where
  input_edges : List Edge
  output_edges : List Edge
deriving DecidableEq, Repr

/-- `Edges::add_input_edge` (not in the provided sources).  Modelled from the
spec invariant "no duplicate edge (by full equality) may exist": appending
fails with `EdgeAlreadyExists` when the edge is already present. -/
def Edges.add_input_edge (es : Edges) (edge : Edge) :
    Except RenderGraphError Edges :=
  if es.input_edges.contains edge then
    .error (.EdgeAlreadyExists edge)
  else
    .ok { es with input_edges := es.input_edges ++ [edge] }

/-- `Edges::add_output_edge` (not in the provided sources), dual of
`Edges.add_input_edge`. -/
def Edges.add_output_edge (es : Edges) (edge : Edge) :
    Except RenderGraphError Edges :=
  if es.output_edges.contains edge then
    .error (.EdgeAlreadyExists edge)
  else
    .ok { es with output_edges := es.output_edges ++ [edge] }

/-- The data a node contributes to the graph container: its declared input
and output signatures (`Node::input` / `Node::output`, both defaulting to
empty).  The trait object's behaviour (`run`, `update`) is irrelevant to the
graph-container operations and is modelled separately where a claim needs
it. -/
structure NodeImpl where
  input : List SlotInfo := []
  output : List SlotInfo := []
deriving DecidableEq, Repr

/-- `NodeState` (not in the provided sources).  Modelled from the spec: owns
one node instance plus its name, input/output `SlotInfo` lists, and its
incident edges. -/
structure NodeState where
  id : NodeId
  name : Option String
  node : NodeImpl
  input_slots : List SlotInfo
  output_slots : List SlotInfo
  edges : Edges
deriving DecidableEq, Repr

/-- `NodeState::new` (not in the provided sources).  Modelled from the spec:
created at `add_node` with the node's declared signatures and default-empty
edge sets. -/
def NodeState.new (id : NodeId) (node : NodeImpl) : NodeState :=
  { id := id
    name := none
    node := node
    input_slots := node.input
    output_slots := node.output
    edges := { input_edges := [], output_edges := [] } }

/-- Association-list lookup (model of `HashMap::get`). -/
def alist_get {α β : Type} [DecidableEq α] : List (α × β) → α → Option β
  | [], _ => none
  | (k, v) :: rest, key => if k = key then some v else alist_get rest key

/-- Association-list insert with replace-on-collision (model of
`HashMap::insert`). -/
def alist_insert {α β : Type} [DecidableEq α] :
    List (α × β) → α → β → List (α × β)
  | [], key, val => [(key, val)]
  | (k, v) :: rest, key, val =>
    if k = key then (key, val) :: rest
    else (k, v) :: alist_insert rest key val

/-- `RenderGraph` (`graph.rs`): node arena, name table and the designated
input node.  Sub-graphs are omitted: no claim under study concerns them.
`next_id` realises the fresh-`NodeId` generator. -/
structure RenderGraph where
  nodes : List (NodeId × NodeState) := []
  node_names : List (String × NodeId) := []
  input_node : Option NodeId := none
  next_id : Nat := 0
deriving DecidableEq, Repr

namespace RenderGraph

/-- `RenderGraph::get_node_id` (`graph.rs`): an id label is returned as-is;
a name label is resolved through the name table. -/
def get_node_id (g : RenderGraph) (label : NodeLabel) :
    Except RenderGraphError NodeId :=
  match label with
  | .Id id => .ok id
  | .Name name =>
    match alist_get g.node_names name with
    | some id => .ok id
    | none => .error (.InvalidNode label)

/-- `RenderGraph::get_node_state` (`graph.rs`). -/
def get_node_state (g : RenderGraph) (label : NodeLabel) :
    Except RenderGraphError NodeState :=
  match g.get_node_id label with
  | .error e => .error e
  | .ok node_id =>
    match alist_get g.nodes node_id with
    | some s => .ok s
    | none => .error (.InvalidNode label)

/-- Writing one node's state back into the arena (the effect of
`get_node_state_mut` followed by a field update). -/
def set_node_state (g : RenderGraph) (id : NodeId) (st : NodeState) :
    RenderGraph :=
  { g with nodes := alist_insert g.nodes id st }

/-- `RenderGraph::add_node` (`graph.rs`): draws a fresh id, builds the state,
stores it under the id and registers the name — with `HashMap::insert`
semantics, i.e. an existing entry for the same name is replaced. -/
def add_node (g : RenderGraph) (name : String) (node : NodeImpl) :
    NodeId × RenderGraph :=
  let id := g.next_id
  let node_state := { NodeState.new id node with name := some name }
  (id,
    { g with
      nodes := alist_insert g.nodes id node_state
      node_names := alist_insert g.node_names name id
      next_id := g.next_id + 1 })

/-- `RenderGraph::set_input` (`graph.rs`): panics ("Graph already has an
input node") when an input node exists, otherwise adds a `GraphInputNode`
named `GraphInputNode` and records it.  The panic is modelled as an error
value returned alongside the untouched graph. -/
def set_input (g : RenderGraph) (inputs : List SlotInfo) :
    Except String NodeId × RenderGraph :=
  if g.input_node.isSome then
    (.error "Graph already has an input node", g)
  else
    let p := g.add_node "GraphInputNode" { input := inputs, output := inputs }
    (.ok p.1, { p.2 with input_node := some p.1 })

/-- `RenderGraph::has_edge` (`graph.rs`): true iff both endpoint nodes exist
and both carry the edge in the respective edge list. -/
def has_edge (g : RenderGraph) (edge : Edge) : Bool :=
  match g.get_node_state (.Id edge.get_output_node) with
  | .ok output_node_state =>
    if output_node_state.edges.output_edges.contains edge then
      match g.get_node_state (.Id edge.get_input_node) with
      | .ok input_node_state =>
        input_node_state.edges.input_edges.contains edge
      | .error _ => false
    else false
  | .error _ => false

/-- The occupancy scan of `RenderGraph::validate_edge` (`graph.rs`): the
first input edge of the node that is a `SlotEdge` into `input_index`. -/
def find_occupying (input_edges : List Edge) (input_index : Nat) :
    Option Edge :=
  input_edges.find? (fun e =>
    match e with
    | .SlotEdge _ _ _ current_input_index => current_input_index = input_index
    | _ => false)

/-- `RenderGraph::validate_edge` (`graph.rs`), checks in source order:
existing edge, then (for slot edges) slot existence, input-slot occupancy,
and finally slot-type equality. -/
def validate_edge (g : RenderGraph) (edge : Edge) :
    Except RenderGraphError Unit :=
  if g.has_edge edge then
    .error (.EdgeAlreadyExists edge)
  else
    match edge with
    | .SlotEdge output_node output_index input_node input_index =>
      match g.get_node_state (.Id output_node) with
      | .error e => .error e
      | .ok output_node_state =>
        match g.get_node_state (.Id input_node) with
        | .error e => .error e
        | .ok input_node_state =>
          match get_slot output_node_state.output_slots output_index with
          | none => .error (.InvalidOutputNodeSlot (.Index output_index))
          | some output_slot =>
            match get_slot input_node_state.input_slots input_index with
            | none => .error (.InvalidInputNodeSlot (.Index input_index))
            | some input_slot =>
              match find_occupying input_node_state.edges.input_edges
                  input_index with
              | some (.SlotEdge current_output_node _ _ _) =>
                .error (.NodeInputSlotAlreadyOccupied input_node input_index
                  current_output_node)
              | _ =>
                if output_slot.slot_type ≠ input_slot.slot_type then
                  .error (.MismatchedNodeSlots output_node output_index
                    input_node input_index)
                else
                  .ok ()
    | .NodeEdge _ _ => .ok ()

/-- `RenderGraph::add_slot_edge` (`graph.rs`): resolve both node labels,
resolve both slot labels against the signatures, validate the edge, then
insert it into the output node's output edges and the input node's input
edges (in that order; a failure between the two insertions leaves the first
insertion in place, as in the source). -/
def add_slot_edge (g : RenderGraph) (output_node : NodeLabel)
    (output_slot : SlotLabel) (input_node : NodeLabel)
    (input_slot : SlotLabel) :
    Except RenderGraphError Unit × RenderGraph :=
  match g.get_node_id output_node with
  | .error e => (.error e, g)
  | .ok output_node_id =>
  match g.get_node_id input_node with
  | .error e => (.error e, g)
  | .ok input_node_id =>
  match g.get_node_state (.Id output_node_id) with
  | .error e => (.error e, g)
  | .ok output_state =>
  match get_slot_index output_state.output_slots output_slot with
  | none => (.error (.InvalidOutputNodeSlot output_slot), g)
  | some output_index =>
  match g.get_node_state (.Id input_node_id) with
  | .error e => (.error e, g)
  | .ok input_state =>
  match get_slot_index input_state.input_slots input_slot with
  | none => (.error (.InvalidInputNodeSlot input_slot), g)
  | some input_index =>
  let edge := Edge.SlotEdge output_node_id output_index input_node_id
    input_index
  match g.validate_edge edge with
  | .error e => (.error e, g)
  | .ok () =>
  match g.get_node_state (.Id output_node_id) with
  | .error e => (.error e, g)
  | .ok output_state' =>
  match output_state'.edges.add_output_edge edge with
  | .error e => (.error e, g)
  | .ok new_output_edges =>
  let g1 := g.set_node_state output_node_id
    { output_state' with edges := new_output_edges }
  match g1.get_node_state (.Id input_node_id) with
  | .error e => (.error e, g1)
  | .ok input_state' =>
  match input_state'.edges.add_input_edge edge with
  | .error e => (.error e, g1)
  | .ok new_input_edges =>
  (.ok (), g1.set_node_state input_node_id
    { input_state' with edges := new_input_edges })

/-- `RenderGraph::iter_node_inputs` (`graph.rs`): each input edge paired with
the state of the node on its output end.  The source's `.unwrap()` on that
lookup is modelled with `Option`. -/
def iter_node_inputs (g : RenderGraph) (label : NodeLabel) :
    Except RenderGraphError (List (Edge × Option NodeState)) :=
  match g.get_node_state label with
  | .error e => .error e
  | .ok node =>
    .ok (node.edges.input_edges.map (fun edge =>
      (edge, (g.get_node_state (.Id edge.get_output_node)).toOption)))

/-- `RenderGraph::iter_node_outputs` (`graph.rs`): each output edge paired
with the state of the node on its input end. -/
def iter_node_outputs (g : RenderGraph) (label : NodeLabel) :
    Except RenderGraphError (List (Edge × Option NodeState)) :=
  match g.get_node_state label with
  | .error e => .error e
  | .ok node =>
    .ok (node.edges.output_edges.map (fun edge =>
      (edge, (g.get_node_state (.Id edge.get_input_node)).toOption)))

end RenderGraph

/-! ### Run context and `GraphInputNode` -/

/-- A slot value: a typed resource handle.  Modelled from the spec: resource
identifiers are opaque generated ids, so each variant carries a natural
number. -/
inductive SlotValue where
  | Buffer (id : Nat)
  | TextureView (id : Nat)
  | Sampler (id : Nat)
  | Entity (id : Nat)
deriving DecidableEq, Repr

/-- `NodeRunError` (run-time slot access errors).  Modelled from the spec:
"invalid/unresolved input/output slot access during a `run` invocation". -/
inductive NodeRunError where
  | InvalidInputNodeSlot (label : SlotLabel)
  | InvalidOutputNodeSlot (label : SlotLabel)
deriving DecidableEq, Repr

/-- `RenderGraphContext` (not in the provided sources).  Modelled from the
spec: the per-invocation context exposes the node's resolved inputs, an
interface to set its own outputs by index, and (for pass nodes) name-based
input accessors resolved against the node's input signature. -/
structure RenderGraphContext where
  input_info : List SlotInfo
  inputs : List SlotValue
  outputs : List (Option SlotValue)
deriving DecidableEq, Repr

namespace RenderGraphContext

/-- `RenderGraphContext::set_output` (not in the provided sources).
Modelled from the spec: writes the node's output slot at the given index,
failing on an out-of-range index. -/
def set_output (ctx : RenderGraphContext) (index : Nat) (value : SlotValue) :
    Except NodeRunError RenderGraphContext :=
  if index < ctx.outputs.length then
    .ok { ctx with outputs := ctx.outputs.set index (some value) }
  else
    .error (.InvalidOutputNodeSlot (.Index index))

/-- `RenderGraphContext::get_input_texture` (not in the provided sources).
Modelled from the spec: resolves the slot name against the node's input
signature and returns the texture-view id stored there; fails when the name
is unknown, the slot is unresolved, or the value is not a texture view. -/
def get_input_texture (ctx : RenderGraphContext) (name : String) :
    Except NodeRunError Nat :=
  match get_slot_index ctx.input_info (.Name name) with
  | none => .error (.InvalidInputNodeSlot (.Name name))
  | some index =>
    match ctx.inputs[index]? with
    | some (.TextureView id) => .ok id
    | _ => .error (.InvalidInputNodeSlot (.Name name))

/-- `RenderGraphContext::get_input_entity` (not in the provided sources),
analogous to `get_input_texture` for entity slots. -/
def get_input_entity (ctx : RenderGraphContext) (name : String) :
    Except NodeRunError Nat :=
  match get_slot_index ctx.input_info (.Name name) with
  | none => .error (.InvalidInputNodeSlot (.Name name))
  | some index =>
    match ctx.inputs[index]? with
    | some (.Entity id) => .ok id
    | _ => .error (.InvalidInputNodeSlot (.Name name))

end RenderGraphContext

/-- The loop body of `GraphInputNode::run` (`graph.rs`): for each index `i`
below the number of context inputs, copy input `i` to output `i`.  The
source's `for i in 0..graph.inputs().len()` is realised as recursion on the
list of remaining indices. -/
def graph_input_node_run_loop (ctx : RenderGraphContext) :
    List Nat → Except NodeRunError RenderGraphContext
  | [] => .ok ctx
  | i :: rest =>
    match ctx.inputs[i]? with
    | none => .error (.InvalidInputNodeSlot (.Index i))
    | some input =>
      match ctx.set_output i input with
      | .error e => .error e
      | .ok ctx' => graph_input_node_run_loop ctx' rest

/-- `GraphInputNode::run` (`graph.rs`): copies every graph-level input value
into the correspondingly-indexed output slot. -/
def graph_input_node_run (ctx : RenderGraphContext) :
    Except NodeRunError RenderGraphContext :=
  graph_input_node_run_loop ctx (List.range ctx.inputs.length)

/-! ### View preparation (`view/mod.rs`) -/

/-- 4×4 matrices.  `bevy_math::Mat4` is a 4×4 float matrix; floats are
modelled as rationals. -/
abbrev Mat4 := Matrix (Fin 4) (Fin 4) ℚ

/-- 3-component vectors (`bevy_math::Vec3`), floats modelled as rationals. -/
structure Vec3 where
  x : ℚ
  y : ℚ
  z : ℚ
deriving DecidableEq, Repr

/-- `Mat4::inverse` (not in the provided sources).  Modelled from the spec's
"inverse(transform)": the matrix inverse, realised as adjugate over
determinant so that it is executable. -/
def mat4_inverse (A : Mat4) : Mat4 :=
  A.det⁻¹ • Matrix.of (fun i j => (A.updateRow j (Pi.single i 1)).det)

/-- `GlobalTransform` (from `bevy_transform`, not in the provided sources).
Modelled from the spec: a world transform exposing its translation component
and, through `compute_matrix`, its 4×4 matrix. -/
structure GlobalTransform where
  matrix : Mat4
  translation : Vec3
deriving DecidableEq

/-- `GlobalTransform::compute_matrix` (not in the provided sources):
the transform's matrix. -/
def GlobalTransform.compute_matrix (t : GlobalTransform) : Mat4 :=
  t.matrix

/-- `ExtractedView` (`view/mod.rs`): per-camera snapshot. -/
structure ExtractedView where
  projection : Mat4
  transform : GlobalTransform
  width : Nat
  height : Nat
deriving DecidableEq

/-- `ViewUniformData` (`view/mod.rs`): the per-view uniform record. -/
structure ViewUniformData where
  view_proj : Mat4
  world_position : Vec3
deriving DecidableEq

/-- `DynamicUniformVec` (not in the provided sources).  Modelled from the
spec: a per-frame dynamic uniform buffer that is cleared and reserved to the
view count each frame, appended to by `push` (which returns an offset into
the buffer, modelled as the record's index), and flushed to a staging
buffer. -/
structure DynamicUniformVec where
  capacity : Nat := 0
  values : List ViewUniformData := []
  staging : List ViewUniformData := []
deriving DecidableEq

/-- `DynamicUniformVec::reserve_and_clear` (not in the provided sources).
Modelled from the spec: clears the records and reserves space for the given
count. -/
def DynamicUniformVec.reserve_and_clear (v : DynamicUniformVec) (count : Nat) :
    DynamicUniformVec :=
  { v with capacity := count, values := [] }

/-- `DynamicUniformVec::push` (not in the provided sources).  Modelled from
the spec: appends one record and returns its offset into the buffer. -/
def DynamicUniformVec.push (v : DynamicUniformVec) (value : ViewUniformData) :
    Nat × DynamicUniformVec :=
  (v.values.length, { v with values := v.values ++ [value] })

/-- `DynamicUniformVec::write_to_staging_buffer` (not in the provided
sources).  Modelled from the spec: flushes the packed records to the staging
buffer. -/
def DynamicUniformVec.write_to_staging_buffer (v : DynamicUniformVec) :
    DynamicUniformVec :=
  { v with staging := v.values }

/-- `ViewUniform` (`view/mod.rs`): the offset component attached to a view
entity. -/
structure ViewUniform where
  view_uniform_offset : Nat
deriving DecidableEq, Repr

/-- The uniform record `prepare_views` builds for one extracted view
(`view/mod.rs`): `view_proj = projection * transform.compute_matrix()
.inverse()`, `world_position = transform.translation`. -/
def view_uniform_data_of (camera : ExtractedView) : ViewUniformData :=
  { view_proj := camera.projection * mat4_inverse camera.transform.compute_matrix
    world_position := camera.transform.translation }

/-- The query loop of `prepare_views` (`view/mod.rs`): for each
`(entity, camera)` in iteration order, push the uniform record and record the
returned offset as that entity's `ViewUniform` component insertion. -/
def prepare_views_loop (meta : DynamicUniformVec)
    (cmds : List (Nat × ViewUniform)) :
    List (Nat × ExtractedView) → DynamicUniformVec × List (Nat × ViewUniform)
  | [] => (meta, cmds)
  | (entity, camera) :: rest =>
    let p := meta.push (view_uniform_data_of camera)
    prepare_views_loop p.2 (cmds ++ [(entity, ⟨p.1⟩)]) rest

/-- `prepare_views` (`view/mod.rs`): clears and reserves the per-frame
uniform buffer to the view count, pushes one record per extracted view in
iteration order (attaching the returned offset to the entity), then flushes
to the staging buffer.  Extracted views are passed as a list of
`(entity, view)` pairs in query-iteration order; component insertions are
returned alongside the buffer. -/
def prepare_views (meta : DynamicUniformVec)
    (extracted_views : List (Nat × ExtractedView)) :
    DynamicUniformVec × List (Nat × ViewUniform) :=
  let m0 := meta.reserve_and_clear extracted_views.length
  let p := prepare_views_loop m0 [] extracted_views
  (p.1.write_to_staging_buffer, p.2)

/-! ### Main 3d pass node (`core_pipeline/main_pass_3d.rs`) -/

/-- `Color` (floats modelled as rationals, alpha included as in
`Color::rgb`). -/
structure Color where
  r : ℚ
  g : ℚ
  b : ℚ
  a : ℚ
deriving DecidableEq, Repr

/-- `Color::rgb`. -/
def Color.rgb (r g b : ℚ) : Color :=
  { r := r, g := g, b := b, a := 1 }

/-- `LoadOp` (`pass/mod.rs`, not in the provided sources; modelled from the
uses in `main_pass_3d.rs`). -/
inductive LoadOp (α : Type) where
  | Clear (value : α)
  | Load
deriving DecidableEq, Repr

/-- `Operations` (`pass/mod.rs`, not in the provided sources; modelled from
the uses in `main_pass_3d.rs`). -/
structure Operations (α : Type) where
  load : LoadOp α
  store : Bool
deriving DecidableEq, Repr

/-- `TextureAttachment` (`pass/pass.rs`). -/
inductive TextureAttachment where
  | Id (texture_id : Nat)
  | Input (name : String)
deriving DecidableEq, Repr

/-- `RenderPassColorAttachment` (`pass/pass.rs`). -/
structure RenderPassColorAttachment where
  attachment : TextureAttachment
  resolve_target : Option TextureAttachment
  ops : Operations Color
deriving DecidableEq, Repr

/-- `RenderPassDepthStencilAttachment` (`pass/pass.rs`); depth floats
modelled as rationals, stencil values as naturals. -/
structure RenderPassDepthStencilAttachment where
  attachment : TextureAttachment
  depth_ops : Option (Operations ℚ)
  stencil_ops : Option (Operations Nat)
deriving DecidableEq, Repr

/-- `PassDescriptor` (`pass/pass.rs`). -/
structure PassDescriptor where
  color_attachments : List RenderPassColorAttachment
  depth_stencil_attachment : Option RenderPassDepthStencilAttachment
  sample_count : Nat
deriving DecidableEq, Repr

/-- One entry of a render phase (`render_phase`, not in the provided
sources).  Modelled from the spec: `{ sort_key, draw_key,
draw_function_id }`. -/
structure Drawable where
  draw_function : Nat
  draw_key : Nat
  sort_key : Nat
deriving DecidableEq, Repr

/-- `RenderPhase` (`render_phase`, not in the provided sources).  Modelled
from the spec: an ordered sequence of drawable entries; the field name
`drawn_things` follows its use in `main_pass_3d.rs`. -/
structure RenderPhase where
  drawn_things : List Drawable
deriving DecidableEq, Repr

/-- Commands a pass node records against the render context, as an abstract
trace: opening a render pass with a descriptor, one draw-function invocation
per drawable, closing the pass when the callback scope ends. -/
inductive RenderCommand where
  | BeginPass (descriptor : PassDescriptor)
  | Draw (draw_function : Nat) (view_entity : Nat) (draw_key : Nat)
      (sort_key : Nat)
  | EndPass
deriving DecidableEq, Repr

/-- The pass descriptor `MainPass3dNode::run` builds
(`main_pass_3d.rs`): one color attachment cleared to `Color::rgb(0.4, 0.4,
0.4)` with store enabled, a depth attachment cleared to `1.0` with store
enabled, no stencil ops, sample count 1. -/
def main_pass_3d_descriptor (color_attachment_texture : Nat)
    (depth_texture : Nat) : PassDescriptor :=
  { color_attachments := [
      { attachment := .Id color_attachment_texture
        resolve_target := none
        ops := { load := .Clear (Color.rgb (2/5) (2/5) (2/5)), store := true } }]
    depth_stencil_attachment := some
      { attachment := .Id depth_texture
        depth_ops := some { load := .Clear 1, store := true }
        stencil_ops := none }
    sample_count := 1 }

/-- The drawable loop inside the `begin_render_pass` callback of
`MainPass3dNode::run`: each drawable's draw function is looked up in the
registry (`DrawFunctions`, modelled as the list of registered ids; the
source's `.unwrap()` panic on a missing id is modelled as `none`) and
invoked with the view entity, draw key and sort key, in list order. -/
def main_pass_3d_draws (registry : List Nat) (view_entity : Nat) :
    List Drawable → Option (List RenderCommand)
  | [] => some []
  | d :: rest =>
    if registry.contains d.draw_function then
      (main_pass_3d_draws registry view_entity rest).map
        (fun cs => .Draw d.draw_function view_entity d.draw_key d.sort_key :: cs)
    else
      none

/-- `MainPass3dNode::run` (`main_pass_3d.rs`) as a trace-producing function:
reads the `color_attachment` and `depth` texture inputs and the `view`
entity input, builds the pass descriptor, opens a single render pass and
walks the phase's `drawn_things` in stored order.  The returned trace is the
sequence of commands recorded against the render context; `none` stands for
the panic on an unregistered draw function. -/
def main_pass_3d_run (ctx : RenderGraphContext) (phase : RenderPhase)
    (registry : List Nat) :
    Except NodeRunError (Option (List RenderCommand)) :=
  match ctx.get_input_texture "color_attachment" with
  | .error e => .error e
  | .ok color_attachment_texture =>
  match ctx.get_input_texture "depth" with
  | .error e => .error e
  | .ok depth_texture =>
  let pass_descriptor := main_pass_3d_descriptor color_attachment_texture
    depth_texture
  match ctx.get_input_entity "view" with
  | .error e => .error e
  | .ok view_entity =>
  .ok ((main_pass_3d_draws registry view_entity phase.drawn_things).map
    (fun draws => .BeginPass pass_descriptor :: draws ++ [.EndPass]))

/-- Decidable equality for `Except`, so that concrete graph operations can be
evaluated inside decidable statements. -/
instance {ε α : Type} [DecidableEq ε] [DecidableEq α] :
    DecidableEq (Except ε α) := fun x y =>
  match x, y with
  | .ok a, .ok b =>
    if h : a = b then .isTrue (by rw [h])
    else .isFalse (fun hh => h (Except.ok.inj hh))
  | .error a, .error b =>
    if h : a = b then .isTrue (by rw [h])
    else .isFalse (fun hh => h (Except.error.inj hh))
  | .ok _, .error _ => .isFalse (fun hh => Except.noConfusion hh)
  | .error _, .ok _ => .isFalse (fun hh => Except.noConfusion hh)

/-! ### Concrete fixtures used by witnesses and counterexamples -/

/-- A node with no inputs and one texture-view output (like the test nodes of
`graph.rs`). -/
def tex_out_node : NodeImpl :=
  { output := [{ name := "out", slot_type := .TextureView }] }

/-- A node with one texture-view input and no outputs. -/
def tex_in_node : NodeImpl :=
  { input := [{ name := "tin", slot_type := .TextureView }] }

/-- A node with one buffer input and no outputs. -/
def buf_in_node : NodeImpl :=
  { input := [{ name := "in", slot_type := .Buffer }] }

/-- A node with no inputs and one buffer output. -/
def buf_out_node : NodeImpl :=
  { output := [{ name := "bout", slot_type := .Buffer }] }

/-- A graph with texture producer `A` (id 0), buffer consumer `B` (id 1) and
buffer producer `C` (id 2). -/
def mixed_graph : RenderGraph :=
  ((((({} : RenderGraph).add_node "A" tex_out_node).2.add_node
    "B" buf_in_node).2.add_node "C" buf_out_node).2)

/-- `mixed_graph` after connecting `C`'s buffer output to `B`'s buffer input,
occupying `B`'s only input slot. -/
def mixed_graph_occupied : RenderGraph :=
  (mixed_graph.add_slot_edge (.Name "C") (.Index 0) (.Name "B")
    (.Index 0)).2

/-- `mixed_graph` with a second buffer producer `E` (id 3). -/
def mixed_graph2 : RenderGraph :=
  (mixed_graph.add_node "E" buf_out_node).2

/-- `mixed_graph2` after connecting `C`'s buffer output to `B`'s buffer
input, occupying `B`'s only input slot. -/
def mixed_graph2_occupied : RenderGraph :=
  (mixed_graph2.add_slot_edge (.Name "C") (.Index 0) (.Name "B")
    (.Index 0)).2

/-- A graph with texture producer `A` (id 0) and texture consumer `D`
(id 1). -/
def tex_pair_graph : RenderGraph :=
  ((({} : RenderGraph).add_node "A" tex_out_node).2.add_node
    "D" tex_in_node).2

/-- `tex_pair_graph` after connecting `A`'s output slot 0 to `D`'s input
slot 0. -/
def tex_pair_graph_linked : RenderGraph :=
  (tex_pair_graph.add_slot_edge (.Name "A") (.Index 0) (.Name "D")
    (.Index 0)).2

/-- A run context for the graph input node: one entity input, one
unresolved output slot. -/
def input_ctx : RenderGraphContext :=
  { input_info := [], inputs := [.Entity 5], outputs := [none] }

/-- Three extracted views with distinct translations (identity projection
and transform matrices). -/
def sample_views : List (Nat × ExtractedView) :=
  [(10, { projection := 1,
          transform := { matrix := 1, translation := ⟨0, 0, 0⟩ },
          width := 800, height := 600 }),
   (11, { projection := 1,
          transform := { matrix := 1, translation := ⟨1, 2, 3⟩ },
          width := 800, height := 600 }),
   (12, { projection := 1,
          transform := { matrix := 1, translation := ⟨4, 5, 6⟩ },
          width := 640, height := 480 })]

/-- A run context carrying the three resolved inputs of the main 3d pass
node. -/
def main_pass_ctx : RenderGraphContext :=
  { input_info := [{ name := "color_attachment", slot_type := .TextureView },
      { name := "depth", slot_type := .TextureView },
      { name := "view", slot_type := .Entity }],
    inputs := [.TextureView 1, .TextureView 2, .Entity 7],
    outputs := [] }

/-- A render phase stored with sort keys `[3, 1, 2]`. -/
def sample_phase : RenderPhase :=
  { drawn_things := [{ draw_function := 0, draw_key := 100, sort_key := 3 },
      { draw_function := 1, draw_key := 101, sort_key := 1 },
      { draw_function := 2, draw_key := 102, sort_key := 2 }] }

/-! ### Helper lemmas -/

theorem alist_get_insert {α β : Type} [DecidableEq α] (m : List (α × β))
    (k : α) (v : β) (k' : α) :
    alist_get (alist_insert m k v) k' =
      if k' = k then some v else alist_get m k' := by
  induction m with
  | nil =>
    by_cases h : k' = k
    · simp [alist_insert, alist_get, h]
    · simp [alist_insert, alist_get, h, Ne.symm h]
  | cons p rest ih =>
    obtain ⟨pk, pv⟩ := p
    by_cases hpk : pk = k
    · subst hpk
      by_cases h : k' = pk
      · simp [alist_insert, alist_get, h]
      · simp [alist_insert, alist_get, h, Ne.symm h]
    · by_cases h : pk = k'
      · subst h
        simp [alist_insert, alist_get, hpk, Ne.symm hpk]
      · simp [alist_insert, alist_get, hpk, h, ih]

theorem alist_get_insert_self {α β : Type} [DecidableEq α] (m : List (α × β))
    (k : α) (v : β) : alist_get (alist_insert m k v) k = some v := by
  simp [alist_get_insert]

theorem alist_get_insert_ne {α β : Type} [DecidableEq α] (m : List (α × β))
    (k : α) (v : β) (k' : α) (h : k' ≠ k) :
    alist_get (alist_insert m k v) k' = alist_get m k' := by
  simp [alist_get_insert, h]

namespace RenderGraph

theorem get_node_state_id (g : RenderGraph) (i : NodeId) :
    g.get_node_state (.Id i) =
      match alist_get g.nodes i with
      | some s => .ok s
      | none => .error (.InvalidNode (.Id i)) := by
  rfl

theorem get_node_state_set_id (g : RenderGraph) (k : NodeId) (st : NodeState)
    (i : NodeId) :
    (g.set_node_state k st).get_node_state (.Id i) =
      if i = k then .ok st else g.get_node_state (.Id i) := by
  by_cases h : i = k
  · subst h
    simp [get_node_state, get_node_id, set_node_state, alist_get_insert_self]
  · simp [get_node_state, get_node_id, set_node_state, h,
      alist_get_insert_ne _ _ _ _ h]

theorem set_node_state_names (g : RenderGraph) (k : NodeId) (st : NodeState) :
    (g.set_node_state k st).node_names = g.node_names := rfl

theorem get_node_id_of_names_eq {g g' : RenderGraph}
    (h : g'.node_names = g.node_names) (label : NodeLabel) :
    g'.get_node_id label = g.get_node_id label := by
  cases label <;> simp [get_node_id, h]

theorem find_occupying_eq_none_not_mem {l : List Edge} {ii : Nat}
    (h : find_occupying l ii = none) (a oi b : Nat) :
    Edge.SlotEdge a oi b ii ∉ l := by
  intro hmem
  have hp := List.find?_eq_none.mp h _ hmem
  simp at hp

theorem find_occupying_mem {l : List Edge} {ii a oi b : Nat}
    (hmem : Edge.SlotEdge a oi b ii ∈ l) :
    ∃ x, find_occupying l ii = some x := by
  have : (l.find? (fun e =>
      match e with
      | .SlotEdge _ _ _ current_input_index => current_input_index = ii
      | _ => false)).isSome := by
    rw [List.find?_isSome]
    exact ⟨_, hmem, by simp⟩
  exact Option.isSome_iff_exists.mp this

theorem has_edge_true_of_mem {g : RenderGraph} {a oi b ii : Nat}
    {stA stB : NodeState}
    (hA : g.get_node_state (.Id a) = .ok stA)
    (hB : g.get_node_state (.Id b) = .ok stB)
    (hout : Edge.SlotEdge a oi b ii ∈ stA.edges.output_edges)
    (hin : Edge.SlotEdge a oi b ii ∈ stB.edges.input_edges) :
    g.has_edge (.SlotEdge a oi b ii) = true := by
  simp [has_edge, Edge.get_output_node, Edge.get_input_node, hA, hB,
    List.elem_iff, hout, hin]

end RenderGraph

theorem Edges.add_output_edge_ok {es es' : Edges} {e : Edge}
    (h : es.add_output_edge e = .ok es') :
    es'.input_edges = es.input_edges ∧
    es'.output_edges = es.output_edges ++ [e] := by
  unfold Edges.add_output_edge at h
  split at h
  · cases h
  · cases h
    exact ⟨rfl, rfl⟩

theorem Edges.add_input_edge_ok {es es' : Edges} {e : Edge}
    (h : es.add_input_edge e = .ok es') :
    es'.input_edges = es.input_edges ++ [e] ∧
    es'.output_edges = es.output_edges := by
  unfold Edges.add_input_edge at h
  split at h
  · cases h
  · cases h
    exact ⟨rfl, rfl⟩

theorem Edges.add_input_edge_error {es : Edges} {e : Edge}
    {err : RenderGraphError} (h : es.add_input_edge e = .error err) :
    e ∈ es.input_edges := by
  unfold Edges.add_input_edge at h
  split at h
  · next hc => simpa [List.elem_iff] using hc
  · cases h

/-- Successful validation of a slot edge implies the edge was not present and
the target input slot unoccupied. -/
theorem validate_slot_ok {g : RenderGraph} {a oi b ii : Nat}
    (h : g.validate_edge (.SlotEdge a oi b ii) = .ok ()) :
    g.has_edge (.SlotEdge a oi b ii) = false ∧
    ∃ stB, g.get_node_state (.Id b) = .ok stB ∧
      RenderGraph.find_occupying stB.edges.input_edges ii = none := by
  unfold RenderGraph.validate_edge at h
  have hhe : g.has_edge (.SlotEdge a oi b ii) = false := by
    cases hh : g.has_edge (.SlotEdge a oi b ii)
    · rfl
    · rw [hh] at h
      simp at h
  rw [hhe] at h
  simp only [Bool.false_eq_true, if_false] at h
  refine ⟨hhe, ?_⟩
  cases hA : g.get_node_state (.Id a) with
  | error e => rw [hA] at h; cases h
  | ok stA =>
  rw [hA] at h
  cases hB : g.get_node_state (.Id b) with
  | error e => rw [hB] at h; cases h
  | ok stB =>
  rw [hB] at h
  dsimp only at h
  cases hos : get_slot stA.output_slots oi with
  | none => rw [hos] at h; cases h
  | some os =>
  rw [hos] at h
  dsimp only at h
  cases his : get_slot stB.input_slots ii with
  | none => rw [his] at h; cases h
  | some is_ =>
  rw [his] at h
  dsimp only at h
  cases hocc : RenderGraph.find_occupying stB.edges.input_edges ii with
  | none => exact ⟨stB, rfl, hocc⟩
  | some x =>
    cases x with
    | SlotEdge c coi bb cii => rw [hocc] at h; cases h
    | NodeEdge c bb =>
      have := List.find?_some hocc
      simp at this

/-- Any failing `add_slot_edge` call leaves the graph exactly as it was:
every error exit happens before the first mutation, and the one error exit
that could in principle follow the first mutation (the duplicate check inside
`add_input_edge`) is unreachable because a successful validation already
ruled the edge out of the input node's input edges. -/
theorem add_slot_edge_error_unchanged {g g' : RenderGraph}
    {onl inl : NodeLabel} {osl isl : SlotLabel} {e : RenderGraphError}
    (h : g.add_slot_edge onl osl inl isl = (.error e, g')) : g' = g := by
  unfold RenderGraph.add_slot_edge at h
  cases h1 : g.get_node_id onl with
  | error e1 => rw [h1] at h; dsimp only at h; injection h with _ hsnd; exact hsnd.symm
  | ok a =>
  rw [h1] at h; dsimp only at h
  cases h2 : g.get_node_id inl with
  | error e1 => rw [h2] at h; dsimp only at h; injection h with _ hsnd; exact hsnd.symm
  | ok b =>
  rw [h2] at h; dsimp only at h
  cases h3 : g.get_node_state (.Id a) with
  | error e1 => rw [h3] at h; dsimp only at h; injection h with _ hsnd; exact hsnd.symm
  | ok stA =>
  rw [h3] at h; dsimp only at h
  cases h4 : get_slot_index stA.output_slots osl with
  | none => rw [h4] at h; dsimp only at h; injection h with _ hsnd; exact hsnd.symm
  | some oi =>
  rw [h4] at h; dsimp only at h
  cases h5 : g.get_node_state (.Id b) with
  | error e1 => rw [h5] at h; dsimp only at h; injection h with _ hsnd; exact hsnd.symm
  | ok stB =>
  rw [h5] at h; dsimp only at h
  cases h6 : get_slot_index stB.input_slots isl with
  | none => rw [h6] at h; dsimp only at h; injection h with _ hsnd; exact hsnd.symm
  | some ii =>
  rw [h6] at h; dsimp only at h
  cases h7 : g.validate_edge (.SlotEdge a oi b ii) with
  | error e1 => rw [h7] at h; dsimp only at h; injection h with _ hsnd; exact hsnd.symm
  | ok u =>
  cases u
  rw [h7] at h; dsimp only at h
  cases h9 : stA.edges.add_output_edge (.SlotEdge a oi b ii) with
  | error e1 => rw [h9] at h; dsimp only at h; injection h with _ hsnd; exact hsnd.symm
  | ok newOut =>
  rw [h9] at h; dsimp only at h
  cases h10 : (g.set_node_state a
      { stA with edges := newOut }).get_node_state (.Id b) with
  | error e1 =>
    exfalso
    rw [RenderGraph.get_node_state_set_id] at h10
    by_cases hab : b = a
    · rw [if_pos hab] at h10; cases h10
    · rw [if_neg hab, h5] at h10; cases h10
  | ok stB2 =>
  rw [h10] at h; dsimp only at h
  cases h11 : stB2.edges.add_input_edge (.SlotEdge a oi b ii) with
  | error e1 =>
    exfalso
    have hmem := Edges.add_input_edge_error h11
    obtain ⟨-, stB3, hB3, hocc⟩ := validate_slot_ok h7
    rw [h5] at hB3
    have hstB3 : stB3 = stB := (Except.ok.inj hB3).symm
    subst hstB3
    have hnotmem := RenderGraph.find_occupying_eq_none_not_mem hocc a oi b
    rw [RenderGraph.get_node_state_set_id] at h10
    by_cases hab : b = a
    · rw [if_pos hab] at h10
      have hstB2 : stB2 = { stA with edges := newOut } :=
        (Except.ok.inj h10).symm
      have hstA : stA = stB3 := by
        rw [hab] at h5
        rw [h3] at h5
        exact Except.ok.inj h5
      rw [hstB2] at hmem
      have hin : ({ stA with edges := newOut } : NodeState).edges.input_edges
          = stA.edges.input_edges := (Edges.add_output_edge_ok h9).1
      rw [hin, hstA] at hmem
      exact hnotmem hmem
    · rw [if_neg hab, h5] at h10
      have hstB2 : stB2 = stB3 := (Except.ok.inj h10).symm
      rw [hstB2] at hmem
      exact hnotmem hmem
  | ok newIn =>
  rw [h11] at h; dsimp only at h
  injection h with hfst _
  exact Except.noConfusion hfst

/-- Elimination principle for a successful `add_slot_edge`: the labels
resolved, and in the new graph both endpoint nodes exist with unchanged slot
signatures and with the new `SlotEdge` present in the output node's output
edges and the input node's input edges; the name table is untouched. -/
theorem add_slot_edge_ok_elim {g g' : RenderGraph}
    {onl inl : NodeLabel} {osl isl : SlotLabel}
    (h : g.add_slot_edge onl osl inl isl = (.ok (), g')) :
    ∃ a b oi ii stA stB stA' stB',
      g.get_node_id onl = .ok a ∧
      g.get_node_id inl = .ok b ∧
      g.get_node_state (.Id a) = .ok stA ∧
      get_slot_index stA.output_slots osl = some oi ∧
      g.get_node_state (.Id b) = .ok stB ∧
      get_slot_index stB.input_slots isl = some ii ∧
      g'.node_names = g.node_names ∧
      g'.get_node_state (.Id a) = .ok stA' ∧
      g'.get_node_state (.Id b) = .ok stB' ∧
      stA'.output_slots = stA.output_slots ∧
      stA'.input_slots = stA.input_slots ∧
      stB'.output_slots = stB.output_slots ∧
      stB'.input_slots = stB.input_slots ∧
      Edge.SlotEdge a oi b ii ∈ stA'.edges.output_edges ∧
      Edge.SlotEdge a oi b ii ∈ stB'.edges.input_edges := by
  unfold RenderGraph.add_slot_edge at h
  cases h1 : g.get_node_id onl with
  | error e1 => rw [h1] at h; dsimp only at h; injection h with hfst _; exact Except.noConfusion hfst
  | ok a =>
  rw [h1] at h; dsimp only at h
  cases h2 : g.get_node_id inl with
  | error e1 => rw [h2] at h; dsimp only at h; injection h with hfst _; exact Except.noConfusion hfst
  | ok b =>
  rw [h2] at h; dsimp only at h
  cases h3 : g.get_node_state (.Id a) with
  | error e1 => rw [h3] at h; dsimp only at h; injection h with hfst _; exact Except.noConfusion hfst
  | ok stA =>
  rw [h3] at h; dsimp only at h
  cases h4 : get_slot_index stA.output_slots osl with
  | none => rw [h4] at h; dsimp only at h; injection h with hfst _; exact Except.noConfusion hfst
  | some oi =>
  rw [h4] at h; dsimp only at h
  cases h5 : g.get_node_state (.Id b) with
  | error e1 => rw [h5] at h; dsimp only at h; injection h with hfst _; exact Except.noConfusion hfst
  | ok stB =>
  rw [h5] at h; dsimp only at h
  cases h6 : get_slot_index stB.input_slots isl with
  | none => rw [h6] at h; dsimp only at h; injection h with hfst _; exact Except.noConfusion hfst
  | some ii =>
  rw [h6] at h; dsimp only at h
  cases h7 : g.validate_edge (.SlotEdge a oi b ii) with
  | error e1 => rw [h7] at h; dsimp only at h; injection h with hfst _; exact Except.noConfusion hfst
  | ok u =>
  cases u
  rw [h7] at h; dsimp only at h
  cases h9 : stA.edges.add_output_edge (.SlotEdge a oi b ii) with
  | error e1 => rw [h9] at h; dsimp only at h; injection h with hfst _; exact Except.noConfusion hfst
  | ok newOut =>
  rw [h9] at h; dsimp only at h
  cases h10 : (g.set_node_state a
      { stA with edges := newOut }).get_node_state (.Id b) with
  | error e1 => rw [h10] at h; dsimp only at h; injection h with hfst _; exact Except.noConfusion hfst
  | ok stB2 =>
  rw [h10] at h; dsimp only at h
  cases h11 : stB2.edges.add_input_edge (.SlotEdge a oi b ii) with
  | error e1 => rw [h11] at h; dsimp only at h; injection h with hfst _; exact Except.noConfusion hfst
  | ok newIn =>
  rw [h11] at h; dsimp only at h
  injection h with _ hsnd
  subst hsnd
  have hout := Edges.add_output_edge_ok h9
  have hin := Edges.add_input_edge_ok h11
  rw [RenderGraph.get_node_state_set_id] at h10
  refine ⟨a, b, oi, ii, stA, stB, ?_⟩
  by_cases hab : a = b
  · -- self edge: both endpoints are the same node
    have hba : b = a := hab.symm
    rw [if_pos hba] at h10
    have hstB2 : stB2 = { stA with edges := newOut } :=
      (Except.ok.inj h10).symm
    have hstAB : stB = stA := by
      rw [← hab] at h5
      rw [h3] at h5
      exact (Except.ok.inj h5).symm
    refine ⟨{ stB2 with edges := newIn }, { stB2 with edges := newIn },
      rfl, rfl, h3, h4, h5, h6, rfl, ?_, ?_, ?_, ?_, ?_, ?_, ?_, ?_⟩
    · rw [RenderGraph.get_node_state_set_id, RenderGraph.get_node_state_set_id]
      rw [if_pos hab]
    · rw [RenderGraph.get_node_state_set_id]
      rw [if_pos rfl]
    · rw [hstB2]
    · rw [hstB2]
    · rw [hstB2, hstAB]
    · rw [hstB2, hstAB]
    · show Edge.SlotEdge a oi b ii ∈ newIn.output_edges
      rw [hin.2, hstB2]
      show Edge.SlotEdge a oi b ii ∈ newOut.output_edges
      rw [hout.2]
      simp
    · show Edge.SlotEdge a oi b ii ∈ newIn.input_edges
      rw [hin.1]
      simp
  · -- distinct endpoints
    have hba : ¬ b = a := fun hh => hab hh.symm
    rw [if_neg hba, h5] at h10
    have hstB2 : stB2 = stB := (Except.ok.inj h10).symm
    refine ⟨{ stA with edges := newOut }, { stB2 with edges := newIn },
      rfl, rfl, h3, h4, h5, h6, rfl, ?_, ?_, ?_, ?_, ?_, ?_, ?_, ?_⟩
    · rw [RenderGraph.get_node_state_set_id, if_neg hab,
        RenderGraph.get_node_state_set_id, if_pos rfl]
    · rw [RenderGraph.get_node_state_set_id, if_pos rfl]
    · rfl
    · rfl
    · rw [hstB2]
    · rw [hstB2]
    · show Edge.SlotEdge a oi b ii ∈ newOut.output_edges
      rw [hout.2]
      simp
    · show Edge.SlotEdge a oi b ii ∈ newIn.input_edges
      rw [hin.1]
      simp

/-- Re-adding an edge that a successful `add_slot_edge` just inserted fails
with `EdgeAlreadyExists` (detected by the `has_edge` check at the top of
`validate_edge`). -/
theorem add_slot_edge_twice_errors {g g' : RenderGraph}
    {onl inl : NodeLabel} {osl isl : SlotLabel}
    (h : g.add_slot_edge onl osl inl isl = (.ok (), g')) :
    ∃ edge, g'.add_slot_edge onl osl inl isl =
      (.error (.EdgeAlreadyExists edge), g') := by
  obtain ⟨a, b, oi, ii, stA, stB, stA', stB', h1, h2, h3, h4, h5, h6, hnames,
    hA', hB', hAo, hAi, hBo, hBi, hout, hin⟩ := add_slot_edge_ok_elim h
  refine ⟨.SlotEdge a oi b ii, ?_⟩
  have hid1 : g'.get_node_id onl = .ok a := by
    rw [RenderGraph.get_node_id_of_names_eq hnames, h1]
  have hid2 : g'.get_node_id inl = .ok b := by
    rw [RenderGraph.get_node_id_of_names_eq hnames, h2]
  have hhe : g'.has_edge (.SlotEdge a oi b ii) = true :=
    RenderGraph.has_edge_true_of_mem hA' hB' hout hin
  have hvr : g'.validate_edge (.SlotEdge a oi b ii) =
      .error (.EdgeAlreadyExists (.SlotEdge a oi b ii)) := by
    unfold RenderGraph.validate_edge
    rw [hhe]
    simp
  simp [RenderGraph.add_slot_edge, hid1, hid2, hA', hB', hAo, hBi, h4, h6, hvr]

/-- On a graph where the proposed slot edge is new and the target input slot
is free, mismatched slot types produce `MismatchedNodeSlots` and leave the
graph untouched. -/
theorem add_slot_edge_mismatch_fresh (g : RenderGraph)
    (onl inl : NodeLabel) (osl isl : SlotLabel) (a b oi ii : Nat)
    {stA stB : NodeState} {os is_ : SlotInfo}
    (h1 : g.get_node_id onl = .ok a)
    (h2 : g.get_node_id inl = .ok b)
    (h3 : g.get_node_state (.Id a) = .ok stA)
    (h4 : get_slot_index stA.output_slots osl = some oi)
    (h5 : g.get_node_state (.Id b) = .ok stB)
    (h6 : get_slot_index stB.input_slots isl = some ii)
    (h7 : g.has_edge (.SlotEdge a oi b ii) = false)
    (h8 : RenderGraph.find_occupying stB.edges.input_edges ii = none)
    (h9 : get_slot stA.output_slots oi = some os)
    (h10 : get_slot stB.input_slots ii = some is_)
    (h11 : os.slot_type ≠ is_.slot_type) :
    g.add_slot_edge onl osl inl isl =
      (.error (.MismatchedNodeSlots a oi b ii), g) := by
  simp [RenderGraph.add_slot_edge, RenderGraph.validate_edge, h1, h2, h3, h4,
    h5, h6, h7, h8, h9, h10, h11]

/-- Behaviour of the `GraphInputNode` copy loop over an index range: every
index in the range receives the corresponding input value, every other
output slot is untouched. -/
theorem graph_input_node_run_loop_spec :
    ∀ (cnt s : Nat) (ctx : RenderGraphContext),
      s + cnt ≤ ctx.inputs.length →
      ctx.inputs.length ≤ ctx.outputs.length →
      ∃ ctx', graph_input_node_run_loop ctx (List.range' s cnt) = .ok ctx' ∧
        ctx'.input_info = ctx.input_info ∧
        ctx'.inputs = ctx.inputs ∧
        ctx'.outputs.length = ctx.outputs.length ∧
        (∀ j, s ≤ j → j < s + cnt →
          ctx'.outputs[j]? = (ctx.inputs[j]?).map some) ∧
        (∀ j, j < s ∨ s + cnt ≤ j → ctx'.outputs[j]? = ctx.outputs[j]?) := by
  intro cnt
  induction cnt with
  | zero =>
    intro s ctx h1 h2
    exact ⟨ctx, rfl, rfl, rfl, rfl, fun j hj1 hj2 => absurd hj2 (by omega),
      fun j hj => rfl⟩
  | succ n ih =>
    intro s ctx h1 h2
    have hs : s < ctx.inputs.length := by omega
    have hso : s < ctx.outputs.length := by omega
    have hv : ctx.inputs[s]? = some ctx.inputs[s] := List.getElem?_eq_getElem hs
    have hset : ctx.set_output s ctx.inputs[s] =
        .ok { ctx with outputs := ctx.outputs.set s (some ctx.inputs[s]) } := by
      unfold RenderGraphContext.set_output
      rw [if_pos hso]
    obtain ⟨ctx', hrun, hinfo, hinp, hlen, hmid, hpres⟩ :=
      ih (s + 1) { ctx with outputs := ctx.outputs.set s (some ctx.inputs[s]) }
        (by show s + 1 + n ≤ ctx.inputs.length; omega)
        (by show ctx.inputs.length ≤ (ctx.outputs.set s _).length
            rw [List.length_set]; exact h2)
    refine ⟨ctx', ?_, ?_, ?_, ?_, ?_, ?_⟩
    · rw [List.range'_succ s n 1]
      simp only [graph_input_node_run_loop]
      rw [hv]
      dsimp only
      rw [hset]
      dsimp only
      exact hrun
    · rw [hinfo]
    · rw [hinp]
    · rw [hlen, List.length_set]
    · intro j hj1 hj2
      by_cases hjs : j = s
      · subst hjs
        rw [hpres j (Or.inl (by omega))]
        show (ctx.outputs.set j (some ctx.inputs[j]))[j]? = _
        simp [List.getElem?_set_self, hso, hv]
      · have hm := hmid j (by omega) (by omega)
        exact hm
    · intro j hj
      have hj' : j < s + 1 ∨ s + 1 + n ≤ j := by omega
      rw [hpres j hj']
      have hne : s ≠ j := by omega
      show (ctx.outputs.set s (some ctx.inputs[s]))[j]? = ctx.outputs[j]?
      simp [List.getElem?_set_ne, hne]

/-- The `prepare_views` loop only appends records: capacity and staging are
untouched and the packed records are the input views' uniform records in
order. -/
theorem prepare_views_loop_values :
    ∀ (views : List (Nat × ExtractedView)) (meta : DynamicUniformVec)
      (cmds : List (Nat × ViewUniform)),
      (prepare_views_loop meta cmds views).1.capacity = meta.capacity ∧
      (prepare_views_loop meta cmds views).1.staging = meta.staging ∧
      (prepare_views_loop meta cmds views).1.values =
        meta.values ++ views.map (fun ev => view_uniform_data_of ev.2) := by
  intro views
  induction views with
  | nil =>
    intro meta cmds
    exact ⟨rfl, rfl, by simp [prepare_views_loop]⟩
  | cons v rest ih =>
    intro meta cmds
    obtain ⟨v1, v2⟩ := v
    simp only [prepare_views_loop, DynamicUniformVec.push]
    refine ⟨?_, ?_, ?_⟩
    · rw [(ih _ _).1]
    · rw [(ih _ _).2.1]
    · rw [(ih _ _).2.2]
      simp

/-- The `prepare_views` loop appends one offset command per view, in order,
with offsets continuing from the records already packed. -/
theorem prepare_views_loop_cmds :
    ∀ (views : List (Nat × ExtractedView)) (meta : DynamicUniformVec)
      (cmds : List (Nat × ViewUniform)),
      (prepare_views_loop meta cmds views).2.length =
        cmds.length + views.length ∧
      (∀ i, i < cmds.length →
        (prepare_views_loop meta cmds views).2[i]? = cmds[i]?) ∧
      (∀ i, i < views.length →
        (prepare_views_loop meta cmds views).2[cmds.length + i]? =
          (views[i]?).map (fun ev => (ev.1, ⟨meta.values.length + i⟩))) := by
  intro views
  induction views with
  | nil =>
    intro meta cmds
    exact ⟨by simp [prepare_views_loop], fun i hi => rfl,
      fun i hi => absurd hi (by simp)⟩
  | cons v rest ih =>
    intro meta cmds
    obtain ⟨v1, v2⟩ := v
    simp only [prepare_views_loop, DynamicUniformVec.push]
    have IH := ih { meta with values :=
        meta.values ++ [view_uniform_data_of v2] }
      (cmds ++ [(v1, ⟨meta.values.length⟩)])
    refine ⟨?_, ?_, ?_⟩
    · rw [IH.1]
      simp
      omega
    · intro i hi
      rw [IH.2.1 i (by simp; omega)]
      rw [List.getElem?_append]
      simp [hi]
    · intro i hi
      cases i with
      | zero =>
        have h0 : cmds.length <
            (cmds ++ [(v1, (⟨meta.values.length⟩ : ViewUniform))]).length := by
          simp
        have := IH.2.1 cmds.length h0
        rw [Nat.add_zero, this, List.getElem?_concat_length]
        simp
      | succ j =>
        have hj : j < rest.length := by
          simp at hi
          omega
        have hrec := IH.2.2 j hj
        have hidx : (cmds ++ [(v1, (⟨meta.values.length⟩ : ViewUniform))]).length
            + j = cmds.length + (j + 1) := by
          simp
          omega
        rw [hidx] at hrec
        rw [hrec]
        have hlen : (meta.values ++ [view_uniform_data_of v2]).length + j =
            meta.values.length + (j + 1) := by
          simp
          omega
        simp only [hlen, List.getElem?_cons_succ]

/-- When every drawable's draw function is registered, the pass node's
drawable loop emits exactly one `Draw` command per drawable, in the stored
order. -/
theorem main_pass_3d_draws_eq :
    ∀ (l : List Drawable) (registry : List Nat) (view : Nat)
      (cs : List RenderCommand),
      main_pass_3d_draws registry view l = some cs →
      cs = l.map (fun d =>
        RenderCommand.Draw d.draw_function view d.draw_key d.sort_key) := by
  intro l
  induction l with
  | nil =>
    intro registry view cs h
    simp only [main_pass_3d_draws] at h
    simp [← Option.some.inj h]
  | cons d rest ih =>
    intro registry view cs h
    simp only [main_pass_3d_draws] at h
    split at h
    · cases hrec : main_pass_3d_draws registry view rest with
      | none => rw [hrec] at h; cases h
      | some cs' =>
        rw [hrec] at h
        dsimp only [Option.map] at h
        have h' := Option.some.inj h
        rw [List.map_cons, ← ih registry view cs' hrec, h']
    · cases h

/-- Extracting the sort keys from a list of `Draw` commands built from
drawables returns the drawables' sort keys in order. -/
theorem filterMap_sort_keys (view : Nat) (l : List Drawable) :
    List.filterMap (fun c => match c with
      | RenderCommand.Draw _ _ _ sort_key => some sort_key
      | _ => none)
      (l.map (fun d =>
        RenderCommand.Draw d.draw_function view d.draw_key d.sort_key)) =
    l.map (fun d => d.sort_key) := by
  induction l with
  | nil => rfl
  | cons a t iht =>
    simp only [List.map_cons, List.filterMap_cons]
    rw [iht]

/-! ### Claims -/

/-- C1 (counterexample): with two `add_node` calls under the same name "A",
the second call completes normally (assigning the fresh id 1), after which
the name "A" resolves to the second node while the first node (id 0) is still
stored — `add_node` silently shadows the existing registration instead of
failing or panicking. -/
theorem claim_C1_counterexample :
    ((({} : RenderGraph).add_node "A" tex_out_node).2.add_node "A"
        buf_in_node).1 = 1 ∧
    alist_get ((({} : RenderGraph).add_node "A" tex_out_node).2.add_node "A"
        buf_in_node).2.node_names "A" = some 1 ∧
    (alist_get ((({} : RenderGraph).add_node "A" tex_out_node).2.add_node "A"
        buf_in_node).2.nodes 0).isSome = true := by
  decide

/-- C1 (amended): `add_node` never fails: it assigns a fresh `NodeId`,
registers the name with replace-on-collision semantics (so an existing node
under the same name is silently shadowed in the name table), and leaves every
other node's stored state untouched. -/
theorem claim_C1 (g : RenderGraph) (name : String) (node : NodeImpl) :
    alist_get (g.add_node name node).2.node_names name =
      some (g.add_node name node).1 ∧
    alist_get (g.add_node name node).2.nodes (g.add_node name node).1 =
      some { NodeState.new (g.add_node name node).1 node with
              name := some name } ∧
    ∀ id : NodeId, id ≠ (g.add_node name node).1 →
      alist_get (g.add_node name node).2.nodes id = alist_get g.nodes id := by
  refine ⟨?_, ?_, ?_⟩
  · simp [RenderGraph.add_node, alist_get_insert_self]
  · simp [RenderGraph.add_node, alist_get_insert_self]
  · intro id h
    simp only [RenderGraph.add_node]
    exact alist_get_insert_ne _ _ _ _ h

/-- Witness for C1 at a concrete input. -/
theorem claim_C1_witness :
    alist_get (({} : RenderGraph).add_node "A" tex_out_node).2.node_names "A" =
      some (({} : RenderGraph).add_node "A" tex_out_node).1 ∧
    alist_get (({} : RenderGraph).add_node "A" tex_out_node).2.nodes 7 =
      alist_get ({} : RenderGraph).nodes 7 :=
  ⟨(claim_C1 {} "A" tex_out_node).1,
   (claim_C1 {} "A" tex_out_node).2.2 7 (by decide)⟩

/-- C2 (counterexample): in `mixed_graph_occupied`, node `A` (id 0) has a
texture-view output while node `B` (id 1) has a buffer input — the declared
slot types differ — and `B`'s input slot 0 is already occupied by producer
`C` (id 2).  `add_slot_edge A.0 → B.0` then returns
`NodeInputSlotAlreadyOccupied`, not `MismatchedNodeSlots`: occupancy is
checked before the type match, contrary to the claimed order. -/
theorem claim_C2_counterexample :
    (mixed_graph.add_slot_edge (.Name "C") (.Index 0) (.Name "B")
      (.Index 0)).1 = .ok () ∧
    get_slot tex_out_node.output 0 =
      some { name := "out", slot_type := .TextureView } ∧
    get_slot buf_in_node.input 0 =
      some { name := "in", slot_type := .Buffer } ∧
    SlotType.TextureView ≠ SlotType.Buffer ∧
    (mixed_graph_occupied.add_slot_edge (.Name "A") (.Index 0) (.Name "B")
      (.Index 0)).1 = .error (.NodeInputSlotAlreadyOccupied 1 0 2) ∧
    (mixed_graph_occupied.add_slot_edge (.Name "A") (.Index 0) (.Name "B")
      (.Index 0)).1 ≠ .error (.MismatchedNodeSlots 0 0 1 0) := by
  decide

/-- C2 (amended): after resolving both slot labels, `add_slot_edge` checks
edge duplication first, then input-slot occupancy, then the slot-type match;
hence whenever the proposed edge is not already present and the target input
slot is occupied by an existing producer, the returned error is
`NodeInputSlotAlreadyOccupied` — even when the two slots' declared types
differ — and the graph is unchanged. -/
theorem claim_C2 (g : RenderGraph) (onl inl : NodeLabel) (osl isl : SlotLabel)
    {a b : NodeId} {oi ii : Nat} {stA stB : NodeState} {os is_ : SlotInfo}
    {c : NodeId} {coi : Nat} {bb : NodeId} {cii : Nat}
    (h1 : g.get_node_id onl = .ok a)
    (h2 : g.get_node_id inl = .ok b)
    (h3 : g.get_node_state (.Id a) = .ok stA)
    (h4 : get_slot_index stA.output_slots osl = some oi)
    (h5 : g.get_node_state (.Id b) = .ok stB)
    (h6 : get_slot_index stB.input_slots isl = some ii)
    (h7 : g.has_edge (.SlotEdge a oi b ii) = false)
    (h8 : RenderGraph.find_occupying stB.edges.input_edges ii =
      some (.SlotEdge c coi bb cii))
    (h9 : get_slot stA.output_slots oi = some os)
    (h10 : get_slot stB.input_slots ii = some is_)
    (_h11 : os.slot_type ≠ is_.slot_type) :
    g.add_slot_edge onl osl inl isl =
      (.error (.NodeInputSlotAlreadyOccupied b ii c), g) := by
  simp [RenderGraph.add_slot_edge, RenderGraph.validate_edge, h1, h2, h3, h4,
    h5, h6, h7, h8, h9, h10]

/-- Witness for C2 at a concrete input (mismatched types, occupied slot). -/
theorem claim_C2_witness :
    mixed_graph_occupied.add_slot_edge (.Name "A") (.Index 0) (.Name "B")
      (.Index 0) =
      (.error (.NodeInputSlotAlreadyOccupied 1 0 2), mixed_graph_occupied) :=
  claim_C2 mixed_graph_occupied (.Name "A") (.Name "B") (.Index 0) (.Index 0)
    rfl rfl rfl rfl rfl rfl rfl rfl rfl rfl (by decide)

/-- C4: when `add_slot_edge` proposes a new edge (not an exact duplicate of
an existing one) into an input slot that already has an incoming `SlotEdge`,
the call fails with `NodeInputSlotAlreadyOccupied`, whose payload names the
input node, the input slot index, and the node that originally occupied the
slot, and the graph is unchanged. -/
theorem claim_C4 (g : RenderGraph) (onl inl : NodeLabel) (osl isl : SlotLabel)
    {a b : NodeId} {oi ii : Nat} {stA stB : NodeState} {os is_ : SlotInfo}
    {c : NodeId} {coi : Nat} {bb : NodeId} {cii : Nat}
    (h1 : g.get_node_id onl = .ok a)
    (h2 : g.get_node_id inl = .ok b)
    (h3 : g.get_node_state (.Id a) = .ok stA)
    (h4 : get_slot_index stA.output_slots osl = some oi)
    (h5 : g.get_node_state (.Id b) = .ok stB)
    (h6 : get_slot_index stB.input_slots isl = some ii)
    (h7 : g.has_edge (.SlotEdge a oi b ii) = false)
    (h8 : RenderGraph.find_occupying stB.edges.input_edges ii =
      some (.SlotEdge c coi bb cii))
    (h9 : get_slot stA.output_slots oi = some os)
    (h10 : get_slot stB.input_slots ii = some is_) :
    g.add_slot_edge onl osl inl isl =
      (.error (.NodeInputSlotAlreadyOccupied b ii c), g) := by
  simp [RenderGraph.add_slot_edge, RenderGraph.validate_edge, h1, h2, h3, h4,
    h5, h6, h7, h8, h9, h10]

/-- Witness for C4 at a concrete input (matching types, occupied slot). -/
theorem claim_C4_witness :
    mixed_graph2_occupied.add_slot_edge (.Name "E") (.Index 0) (.Name "B")
      (.Index 0) =
      (.error (.NodeInputSlotAlreadyOccupied 1 0 2), mixed_graph2_occupied) :=
  claim_C4 mixed_graph2_occupied (.Name "E") (.Name "B") (.Index 0) (.Index 0)
    rfl rfl rfl rfl rfl rfl rfl rfl rfl rfl

/-- C6: `set_input` succeeds at most once: on a graph without an input node
it creates the input node and returns its id, recording it as the graph's
input node; on a graph that already has an input node it fails (the source
panics with "Graph already has an input node") and leaves the graph — in
particular the existing input node — unchanged. -/
theorem claim_C6 :
    (∀ (g : RenderGraph) (inputs : List SlotInfo), g.input_node = none →
      (g.set_input inputs).1 = .ok g.next_id ∧
      (g.set_input inputs).2.input_node = some g.next_id) ∧
    (∀ (g : RenderGraph) (inputs : List SlotInfo), g.input_node.isSome →
      g.set_input inputs = (.error "Graph already has an input node", g)) := by
  constructor
  · intro g inputs h
    simp [RenderGraph.set_input, RenderGraph.add_node, h]
  · intro g inputs h
    simp [RenderGraph.set_input, h]

/-- Witness for C6 at a concrete input. -/
theorem claim_C6_witness :
    ((({} : RenderGraph).set_input []).1 = .ok 0 ∧
      (({} : RenderGraph).set_input []).2.input_node = some 0) ∧
    (({} : RenderGraph).set_input []).2.set_input [] =
      (.error "Graph already has an input node",
        (({} : RenderGraph).set_input []).2) :=
  ⟨claim_C6.1 {} [] rfl,
   claim_C6.2 (({} : RenderGraph).set_input []).2 [] (by decide)⟩

/-- C10: `get_node_id` with an id label returns that id unchecked, even for
ids never added to the graph; only name labels are validated (an unknown
name yields `InvalidNode`).  A missing id is caught only by
`get_node_state`, which returns `InvalidNode` for it. -/
theorem claim_C10 :
    (∀ (g : RenderGraph) (id : NodeId), g.get_node_id (.Id id) = .ok id) ∧
    (∀ (g : RenderGraph) (id : NodeId), alist_get g.nodes id = none →
      g.get_node_state (.Id id) = .error (.InvalidNode (.Id id))) ∧
    (∀ (g : RenderGraph) (name : String), alist_get g.node_names name = none →
      g.get_node_id (.Name name) = .error (.InvalidNode (.Name name))) := by
  refine ⟨fun g id => rfl, ?_, ?_⟩
  · intro g id h
    simp [RenderGraph.get_node_state, RenderGraph.get_node_id, h]
  · intro g name h
    simp [RenderGraph.get_node_id, h]

/-- Witness for C10 at a concrete input. -/
theorem claim_C10_witness :
    mixed_graph.get_node_id (.Id 99) = .ok 99 ∧
    mixed_graph.get_node_state (.Id 99) = .error (.InvalidNode (.Id 99)) ∧
    mixed_graph.get_node_id (.Name "Z") = .error (.InvalidNode (.Name "Z")) :=
  ⟨claim_C10.1 mixed_graph 99, claim_C10.2.1 mixed_graph 99 (by decide),
   claim_C10.2.2 mixed_graph "Z" (by decide)⟩

/-- C3: every failing `add_slot_edge` call leaves the graph completely
unchanged; adding the same slot edge a second time fails with
`EdgeAlreadyExists` (leaving the graph as the first call left it); and on a
fresh, unoccupied, type-mismatched connection the error is
`MismatchedNodeSlots` with the graph untouched. -/
theorem claim_C3 :
    (∀ (g g' : RenderGraph) (onl inl : NodeLabel) (osl isl : SlotLabel)
        (e : RenderGraphError),
      g.add_slot_edge onl osl inl isl = (.error e, g') → g' = g) ∧
    (∀ (g g' : RenderGraph) (onl inl : NodeLabel) (osl isl : SlotLabel),
      g.add_slot_edge onl osl inl isl = (.ok (), g') →
      ∃ edge, g'.add_slot_edge onl osl inl isl =
        (.error (.EdgeAlreadyExists edge), g')) ∧
    (∀ (g : RenderGraph) (onl inl : NodeLabel) (osl isl : SlotLabel)
        (a b oi ii : Nat) {stA stB : NodeState} {os is_ : SlotInfo},
      g.get_node_id onl = .ok a →
      g.get_node_id inl = .ok b →
      g.get_node_state (.Id a) = .ok stA →
      get_slot_index stA.output_slots osl = some oi →
      g.get_node_state (.Id b) = .ok stB →
      get_slot_index stB.input_slots isl = some ii →
      g.has_edge (.SlotEdge a oi b ii) = false →
      RenderGraph.find_occupying stB.edges.input_edges ii = none →
      get_slot stA.output_slots oi = some os →
      get_slot stB.input_slots ii = some is_ →
      os.slot_type ≠ is_.slot_type →
      g.add_slot_edge onl osl inl isl =
        (.error (.MismatchedNodeSlots a oi b ii), g)) :=
  by
  refine ⟨fun _ _ _ _ _ _ _ h => add_slot_edge_error_unchanged h,
    fun _ _ _ _ _ _ h => add_slot_edge_twice_errors h, ?_⟩
  intro g onl inl osl isl a b oi ii stA stB os is_ h1 h2 h3 h4 h5 h6 h7 h8
    h9 h10 h11
  exact add_slot_edge_mismatch_fresh g onl inl osl isl a b oi ii h1 h2 h3 h4
    h5 h6 h7 h8 h9 h10 h11

/-- Witness for C3 at concrete inputs: a failed mismatch call leaves
`mixed_graph` unchanged and reports `MismatchedNodeSlots`; re-adding the edge
of `tex_pair_graph_linked` reports `EdgeAlreadyExists`. -/
theorem claim_C3_witness :
    ((mixed_graph.add_slot_edge (.Name "A") (.Index 0) (.Name "B")
      (.Index 0)).2 = mixed_graph) ∧
    (∃ edge, tex_pair_graph_linked.add_slot_edge (.Name "A") (.Index 0)
        (.Name "D") (.Index 0) =
      (.error (.EdgeAlreadyExists edge), tex_pair_graph_linked)) ∧
    (mixed_graph.add_slot_edge (.Name "A") (.Index 0) (.Name "B") (.Index 0) =
      (.error (.MismatchedNodeSlots 0 0 1 0), mixed_graph)) :=
  ⟨claim_C3.1 mixed_graph
      (mixed_graph.add_slot_edge (.Name "A") (.Index 0) (.Name "B")
        (.Index 0)).2
      (.Name "A") (.Name "B") (.Index 0) (.Index 0)
      (.MismatchedNodeSlots 0 0 1 0) (by decide),
   claim_C3.2.1 tex_pair_graph tex_pair_graph_linked (.Name "A") (.Name "D")
      (.Index 0) (.Index 0) (by decide),
   claim_C3.2.2 mixed_graph (.Name "A") (.Name "B") (.Index 0) (.Index 0)
      0 1 0 0 rfl rfl rfl rfl rfl rfl rfl rfl rfl rfl (by decide)⟩

/-- C5: after a successful `add_slot_edge`, the new `SlotEdge` appears in
`iter_node_outputs` of the output node paired with the input node's state,
and in `iter_node_inputs` of the input node paired with the output node's
state: the edge is inserted symmetrically into both nodes' edge sets. -/
theorem claim_C5 {g g' : RenderGraph} {onl inl : NodeLabel}
    {osl isl : SlotLabel}
    (h : g.add_slot_edge onl osl inl isl = (.ok (), g')) :
    ∃ a b oi ii stA' stB' outsA insB,
      g.get_node_id onl = .ok a ∧
      g.get_node_id inl = .ok b ∧
      g'.get_node_state (.Id a) = .ok stA' ∧
      g'.get_node_state (.Id b) = .ok stB' ∧
      g'.iter_node_outputs (.Id a) = .ok outsA ∧
      g'.iter_node_inputs (.Id b) = .ok insB ∧
      (Edge.SlotEdge a oi b ii, some stB') ∈ outsA ∧
      (Edge.SlotEdge a oi b ii, some stA') ∈ insB := by
  obtain ⟨a, b, oi, ii, stA, stB, stA', stB', h1, h2, h3, h4, h5, h6, hnames,
    hA', hB', hAo, hAi, hBo, hBi, hout, hin⟩ := add_slot_edge_ok_elim h
  refine ⟨a, b, oi, ii, stA', stB',
    stA'.edges.output_edges.map (fun edge =>
      (edge, (g'.get_node_state (.Id edge.get_input_node)).toOption)),
    stB'.edges.input_edges.map (fun edge =>
      (edge, (g'.get_node_state (.Id edge.get_output_node)).toOption)),
    h1, h2, hA', hB', ?_, ?_, ?_, ?_⟩
  · simp [RenderGraph.iter_node_outputs, hA']
  · simp [RenderGraph.iter_node_inputs, hB']
  · exact List.mem_map.mpr ⟨_, hout,
      by simp [Edge.get_input_node, hB', Except.toOption]⟩
  · exact List.mem_map.mpr ⟨_, hin,
      by simp [Edge.get_output_node, hA', Except.toOption]⟩

/-- Witness for C5 at a concrete input: linking `A.out → D.tin` in
`tex_pair_graph`. -/
theorem claim_C5_witness :
    ∃ a b oi ii stA' stB' outsA insB,
      tex_pair_graph.get_node_id (.Name "A") = .ok a ∧
      tex_pair_graph.get_node_id (.Name "D") = .ok b ∧
      tex_pair_graph_linked.get_node_state (.Id a) = .ok stA' ∧
      tex_pair_graph_linked.get_node_state (.Id b) = .ok stB' ∧
      tex_pair_graph_linked.iter_node_outputs (.Id a) = .ok outsA ∧
      tex_pair_graph_linked.iter_node_inputs (.Id b) = .ok insB ∧
      (Edge.SlotEdge a oi b ii, some stB') ∈ outsA ∧
      (Edge.SlotEdge a oi b ii, some stA') ∈ insB :=
  @claim_C5 tex_pair_graph tex_pair_graph_linked (.Name "A") (.Name "D")
    (.Index 0) (.Index 0) (by decide)

/-- C7: the node `set_input` installs has output (and input) signature equal
to the declared input signature, and `GraphInputNode::run` is the identity
copy: it succeeds, writing input value `j` into output slot `j` for every
index `j` of the inputs and leaving any other output slot untouched. -/
theorem claim_C7 :
    (∀ (g : RenderGraph) (inputs : List SlotInfo), g.input_node = none →
      ∃ st, alist_get (g.set_input inputs).2.nodes g.next_id = some st ∧
        st.output_slots = inputs ∧ st.input_slots = inputs) ∧
    (∀ ctx : RenderGraphContext, ctx.inputs.length ≤ ctx.outputs.length →
      ∃ ctx', graph_input_node_run ctx = .ok ctx' ∧
        (∀ j, j < ctx.inputs.length →
          ctx'.outputs[j]? = (ctx.inputs[j]?).map some) ∧
        (∀ j, ctx.inputs.length ≤ j →
          ctx'.outputs[j]? = ctx.outputs[j]?)) := by
  constructor
  · intro g inputs h
    refine ⟨{ NodeState.new g.next_id { input := inputs, output := inputs }
        with name := some "GraphInputNode" }, ?_, rfl, rfl⟩
    simp [RenderGraph.set_input, h, RenderGraph.add_node, alist_get_insert_self]
  · intro ctx h
    obtain ⟨ctx', hrun, _, _, _, hmid, hpres⟩ :=
      graph_input_node_run_loop_spec ctx.inputs.length 0 ctx (by omega) h
    refine ⟨ctx', ?_, ?_, ?_⟩
    · unfold graph_input_node_run
      rw [List.range_eq_range' ctx.inputs.length]
      exact hrun
    · intro j hj
      exact hmid j (by omega) (by omega)
    · intro j hj
      exact hpres j (Or.inr (by omega))

/-- Witness for C7 at a concrete input. -/
theorem claim_C7_witness :
    (∃ st, alist_get (({} : RenderGraph).set_input
        [{ name := "view", slot_type := .Entity }]).2.nodes
        ({} : RenderGraph).next_id = some st ∧
      st.output_slots = [{ name := "view", slot_type := .Entity }] ∧
      st.input_slots = [{ name := "view", slot_type := .Entity }]) ∧
    (∃ ctx', graph_input_node_run input_ctx = .ok ctx' ∧
      (∀ j, j < input_ctx.inputs.length →
        ctx'.outputs[j]? = (input_ctx.inputs[j]?).map some) ∧
      (∀ j, input_ctx.inputs.length ≤ j →
        ctx'.outputs[j]? = input_ctx.outputs[j]?)) :=
  ⟨claim_C7.1 {} [{ name := "view", slot_type := .Entity }] rfl,
   claim_C7.2 input_ctx (by decide)⟩

/-- C8: `prepare_views` clears the per-frame uniform buffer and reserves it
to the view count, then pushes exactly one uniform record per view in
iteration order — record `i` being the `i`-th view's
`{ view_proj := projection * inverse(compute_matrix transform),
world_position := transform.translation }` (see `view_uniform_data_of`) with
offset `i` attached to the `i`-th entity — and flushes the records to the
staging buffer.  Records and offsets are a function of the inputs alone
(`prepare_views` is a pure function), hence reproducible. -/
theorem claim_C8 (meta : DynamicUniformVec)
    (views : List (Nat × ExtractedView)) :
    (prepare_views meta views).1.capacity = views.length ∧
    (prepare_views meta views).1.values.length = views.length ∧
    (prepare_views meta views).2.length = views.length ∧
    (prepare_views meta views).1.staging =
      (prepare_views meta views).1.values ∧
    (∀ i, i < views.length →
      (prepare_views meta views).1.values[i]? =
        (views[i]?).map (fun ev => view_uniform_data_of ev.2)) ∧
    (∀ i, i < views.length →
      (prepare_views meta views).2[i]? =
        (views[i]?).map (fun ev => (ev.1, ⟨i⟩))) := by
  have hv := prepare_views_loop_values views
    (meta.reserve_and_clear views.length) []
  have hc := prepare_views_loop_cmds views
    (meta.reserve_and_clear views.length) []
  simp only [DynamicUniformVec.reserve_and_clear] at hv hc
  unfold prepare_views
  simp only [DynamicUniformVec.reserve_and_clear,
    DynamicUniformVec.write_to_staging_buffer]
  refine ⟨?_, ?_, ?_, ?_, ?_, ?_⟩
  · rw [hv.1]
  · rw [hv.2.2]
    simp
  · rw [hc.1]
    simp
  · trivial
  · intro i hi
    rw [hv.2.2]
    simp [List.getElem?_map]
  · intro i hi
    have := hc.2.2 i hi
    simpa using this

/-- Witness for C8 at a concrete input: three views, middle record and
offset. -/
theorem claim_C8_witness :
    (prepare_views {} sample_views).1.values.length = 3 ∧
    (prepare_views {} sample_views).1.values[1]? =
      (sample_views[1]?).map (fun ev => view_uniform_data_of ev.2) ∧
    (prepare_views {} sample_views).2[1]? =
      (sample_views[1]?).map (fun ev => (ev.1, ⟨1⟩)) :=
  ⟨(claim_C8 {} sample_views).2.1,
   (claim_C8 {} sample_views).2.2.2.2.1 1 (by decide),
   (claim_C8 {} sample_views).2.2.2.2.2 1 (by decide)⟩

/-- C9: whenever `MainPass3dNode::run` completes (all inputs resolve and all
draw functions are registered), its command trace is exactly one
`BeginPass` — with the descriptor built from the color and depth inputs —
followed by one `Draw` per drawable of the phase *in the phase's stored
order* (no re-sorting: the emitted sort-key sequence equals the stored one),
followed by the pass close. -/
theorem claim_C9 {ctx : RenderGraphContext} {phase : RenderPhase}
    {registry : List Nat} {cmds : List RenderCommand}
    (h : main_pass_3d_run ctx phase registry = .ok (some cmds)) :
    ∃ color depth view,
      ctx.get_input_texture "color_attachment" = .ok color ∧
      ctx.get_input_texture "depth" = .ok depth ∧
      ctx.get_input_entity "view" = .ok view ∧
      cmds = .BeginPass (main_pass_3d_descriptor color depth) ::
        (phase.drawn_things.map (fun d =>
          RenderCommand.Draw d.draw_function view d.draw_key d.sort_key) ++
          [.EndPass]) ∧
      cmds.countP (fun c => match c with
        | .BeginPass _ => true
        | _ => false) = 1 ∧
      cmds.filterMap (fun c => match c with
        | .Draw _ _ _ sort_key => some sort_key
        | _ => none) = phase.drawn_things.map (fun d => d.sort_key) := by
  unfold main_pass_3d_run at h
  cases h1 : ctx.get_input_texture "color_attachment" with
  | error e => rw [h1] at h; cases h
  | ok color =>
  rw [h1] at h; dsimp only at h
  cases h2 : ctx.get_input_texture "depth" with
  | error e => rw [h2] at h; cases h
  | ok depth =>
  rw [h2] at h; dsimp only at h
  cases h3 : ctx.get_input_entity "view" with
  | error e => rw [h3] at h; cases h
  | ok view =>
  rw [h3] at h; dsimp only at h
  cases h4 : main_pass_3d_draws registry view phase.drawn_things with
  | none => rw [h4] at h; cases h
  | some draws =>
  rw [h4] at h
  dsimp only [Option.map] at h
  have h' := Option.some.inj (Except.ok.inj h)
  have hdr := main_pass_3d_draws_eq phase.drawn_things registry view draws h4
  subst hdr
  refine ⟨color, depth, view, rfl, rfl, rfl, h'.symm, ?_, ?_⟩
  · rw [← h']
    simp [List.countP_cons, List.countP_append, List.countP_map,
      Function.comp, List.countP_eq_zero]
  · rw [← h']
    simp only [List.filterMap_cons, List.filterMap_append]
    rw [filterMap_sort_keys]
    simp

/-- Witness for C9 at a concrete input: a phase stored with sort keys
`[3, 1, 2]` is drawn in exactly that stored order within one render pass. -/
theorem claim_C9_witness :
    ∃ color depth view,
      main_pass_ctx.get_input_texture "color_attachment" = .ok color ∧
      main_pass_ctx.get_input_texture "depth" = .ok depth ∧
      main_pass_ctx.get_input_entity "view" = .ok view ∧
      [RenderCommand.BeginPass (main_pass_3d_descriptor 1 2),
        .Draw 0 7 100 3, .Draw 1 7 101 1, .Draw 2 7 102 2, .EndPass] =
        .BeginPass (main_pass_3d_descriptor color depth) ::
        (sample_phase.drawn_things.map (fun d =>
          RenderCommand.Draw d.draw_function view d.draw_key d.sort_key) ++
          [.EndPass]) ∧
      List.countP (fun c => match c with
        | RenderCommand.BeginPass _ => true
        | _ => false)
        [RenderCommand.BeginPass (main_pass_3d_descriptor 1 2),
          .Draw 0 7 100 3, .Draw 1 7 101 1, .Draw 2 7 102 2, .EndPass] = 1 ∧
      List.filterMap (fun c => match c with
        | RenderCommand.Draw _ _ _ sort_key => some sort_key
        | _ => none)
        [RenderCommand.BeginPass (main_pass_3d_descriptor 1 2),
          .Draw 0 7 100 3, .Draw 1 7 101 1, .Draw 2 7 102 2, .EndPass] =
        sample_phase.drawn_things.map (fun d => d.sort_key) :=
  @claim_C9 main_pass_ctx sample_phase [0, 1, 2]
    [.BeginPass (main_pass_3d_descriptor 1 2),
      .Draw 0 7 100 3, .Draw 1 7 101 1, .Draw 2 7 102 2, .EndPass]
    rfl

end RenderGraph2
